import Mathlib

/-!
Verification of the solura-backend shift-scheduling / holiday subsystem.

Shallow embedding of the shift-scheduling and holiday-accrual logic of the
solura backend (`src/App.js` and the unnamed server variant
`src/unnamed/part_000`), together with proofs about the embedded
definitions.

Conventions of the embedding:
* JavaScript strings are Lean `String`s; the JS string primitives used by the
  code (`trim`, `toLowerCase`, `split`, `substring(0,5)`, `includes`,
  lexicographic `<`) are re-implemented on `List Char` with JS semantics.
* JS numbers appearing as integers (minutes, ids, day counts, millisecond
  timestamps) are `Int`/`Nat`; the one genuinely fractional computation
  (holiday accrual) is over `ℚ`.  `Math.floor` of a division of integer
  millisecond quantities is `Int.fdiv` (exact for the magnitudes involved).
* SQL rows are Lean structures; `NULL`-able columns are `Option String` /
  `Option Int`; a `SELECT` with a column list is a projection function, and a
  column *not* in the list is absent from the fetched record (JS `undefined`),
  modelled as `none`.
* Endpoint handlers are pure functions from the request fields and the rows
  the handler's queries would return, to an outcome value (and the updated
  row set where the handler writes).
* `Math.random()` driven id generation is modelled by passing the stream of
  generated values (`ℕ → ℤ`) explicitly; the single call
  `generateUniqueCode` is a function of one random draw `r ∈ [0,1)`.
-/

namespace Solura

/-! ## JS string primitives -/

/-- Is `c` an ASCII decimal digit (`[0-9]`)? -/
def isDigitCh (c : Char) : Bool := 48 ≤ c.toNat && c.toNat ≤ 57

/-- Numeric value of an ASCII digit character. -/
def digitVal (c : Char) : ℕ := c.toNat - 48

/-- Whitespace characters recognized by JS `trim` (ASCII subset, which is all
the data of this system uses). -/
def isWSCh (c : Char) : Bool := c = ' ' || c = '\t' || c = '\n' || c = '\r'

/-- JS `String.prototype.trim()`. -/
def jsTrim (s : String) : String :=
  ⟨((s.data.dropWhile isWSCh).reverse.dropWhile isWSCh).reverse⟩

/-- JS `String.prototype.toLowerCase()` (ASCII). -/
def jsLower (s : String) : String := ⟨s.data.map Char.toLower⟩

/-- JS `String.prototype.split(sep)` for a one-character separator:
helper accumulating the current field. -/
def jsSplitAux (sep : Char) : List Char → List Char → List (List Char)
  | [], acc => [acc.reverse]
  | c :: cs, acc =>
    if c = sep then acc.reverse :: jsSplitAux sep cs []
    else jsSplitAux sep cs (c :: acc)

/-- JS `String.prototype.split(sep)` for a one-character separator. -/
def jsSplit (sep : Char) (s : String) : List String :=
  (jsSplitAux sep s.data []).map List.asString

/-- JS `String.prototype.includes(c)` for a single character. -/
def jsIncludes (c : Char) (s : String) : Bool := s.data.contains c

/-- JS `String.prototype.substring(0, n)` (ASCII data). -/
def jsSub0 (n : ℕ) (s : String) : String := ⟨s.data.take n⟩

/-- JS `<` on strings: lexicographic comparison by code unit. -/
def lexLt : List Char → List Char → Bool
  | [], [] => false
  | [], _ :: _ => true
  | _ :: _, [] => false
  | a :: as, b :: bs =>
    if a.toNat < b.toNat then true
    else if b.toNat < a.toNat then false
    else lexLt as bs

/-- JS `a < b` on strings. -/
def jsStrLt (a b : String) : Bool := lexLt a.data b.data

/-- JS `s.startsWith(p)`. -/
def jsStartsWith (p s : String) : Bool := s.data.take p.data.length = p.data

/-- JS `a > b` on strings. -/
def jsStrGt (a b : String) : Bool := jsStrLt b a

/-- JS `x ?? ""` / `String(x || "")` for a possibly-`NULL`/absent string
column: `none` (SQL `NULL`, or a column missing from the `SELECT` list,
i.e. JS `undefined`) becomes the empty string. -/
def jsOrEmpty : Option String → String
  | none => ""
  | some s => s

/-- Decimal digit-run value: `none` when the list does not begin with a
digit (JS `parseInt` yielding `NaN`). -/
def digitsVal (cs : List Char) : Option ℕ :=
  match cs.takeWhile isDigitCh with
  | [] => none
  | ds => some (ds.foldl (fun n c => 10 * n + digitVal c) 0)

/-- JS `parseInt(s, 10)`: skip leading whitespace, optional sign, then the
longest run of decimal digits; `none` is `NaN`. -/
def jsParseInt (s : String) : Option ℤ :=
  match s.data.dropWhile isWSCh with
  | '-' :: rest => (digitsVal rest).map (fun n => -(n : ℤ))
  | '+' :: rest => (digitsVal rest).map (fun n => (n : ℤ))
  | rest => (digitsVal rest).map (fun n => (n : ℤ))

/-! ## Time strings

`App.js` validates request times with the regex
`^([0-1]?[0-9]|2[0-3]):[0-5][0-9]$` and then parses them with
`split(':').map(Number)`.  The regex constrains the string to one of two
shapes (`H:mm` or `HH:mm`), so both the regex test and the subsequent
numeric parse are functions of those shapes. -/

/-- The time-validation regex `^([0-1]?[0-9]|2[0-3]):[0-5][0-9]$` of
`/save-shift` and `/add-another-shift`. -/
def timeRegexOK (s : String) : Bool :=
  match s.data with
  | [h, c, m1, m2] =>
    -- one-digit hour: `[0-1]?` absent, so `[0-9]`
    c = ':' && isDigitCh h && (48 ≤ m1.toNat && m1.toNat ≤ 53) && isDigitCh m2
  | [h1, h2, c, m1, m2] =>
    c = ':' &&
      ((h1 = '0' || h1 = '1') && isDigitCh h2 ||
        (h1 = '2' && (48 ≤ h2.toNat && h2.toNat ≤ 51))) &&
      (48 ≤ m1.toNat && m1.toNat ≤ 53) && isDigitCh m2
  | _ => false

/-- Parse `startTime.split(':').map(Number)` destructured to `[hour, minute]`,
for the two string shapes that pass `timeRegexOK` (on any other string the
code would already have returned a 400 before parsing). -/
def parseHM (s : String) : ℕ × ℕ :=
  match s.data with
  | [h, _, m1, m2] => (digitVal h, 10 * digitVal m1 + digitVal m2)
  | [h1, h2, _, m1, m2] =>
    (10 * digitVal h1 + digitVal h2, 10 * digitVal m1 + digitVal m2)
  | _ => (0, 0)

/-- The redundant numeric range re-check both shift endpoints perform after
the regex: `HH` in 0–23 and `MM` in 0–59 (the `< 0` half is vacuous for
digit-parsed values). -/
def timeRangeOK (h m : ℕ) : Bool := h ≤ 23 && m ≤ 59

/-- Function `ensureTimeWithSeconds` from `App.js`: empty (falsy) input becomes
`"00:00:00"`; a string containing `:` that splits into exactly two parts
gets `":00"` appended; anything else is returned unchanged. -/
def ensureTimeWithSeconds (time : String) : String :=
  if time = "" then "00:00:00"
  else if jsIncludes ':' time && (jsSplit ':' time).length = 2 then time ++ ":00"
  else time

/-- Read-back for display, e.g. in `/rota`:
`row.startTime.substring(0, 5)` (drop the seconds). -/
def displayTime (t : String) : String := jsSub0 5 t

/-! ## Overlap resolver (`/save-shift`) -/

/-- The per-pair overlap test of `/save-shift`, on minute offsets.
`nS, nE` are the candidate (new) shift's start/end in minutes since
midnight, `eS, eE` the existing shift's.  Transcribed branch by branch:

* both in-day: strict interval intersection;
* new wraps (`nS > nE`): against an in-day existing shift the code uses a
  *disjunction* `nS < eE || nE + 1440 > eS`; against a wrapping existing
  shift, `nS < eE + 1440 && nE + 1440 > eS`;
* only the existing shift wraps: `nS < eE + 1440 && nE > eS`;
* otherwise `overlap` keeps its initial value `false`. -/
def shiftOverlap (nS nE eS eE : ℤ) : Bool :=
  if nS < nE ∧ eS < eE then
    decide (nS < eE ∧ nE > eS)
  else if nS > nE then
    if eS < eE then decide (nS < eE ∨ nE + 1440 > eS)
    else decide (nS < eE + 1440 ∧ nE + 1440 > eS)
  else if eS > eE then
    decide (nS < eE + 1440 ∧ nE > eS)
  else
    false

/-- Does the pair wrap past midnight in the code's sense
(the `startMin > endMin` branch)? -/
def wrapsMidnight (s e : ℤ) : Bool := decide (s > e)

/-! ## Overlap check of `/add-another-shift`

This endpoint does *not* convert to minutes: it compares the raw `HH:mm`
strings with JS `<` / `>` (lexicographic).  The two disjuncts in the source
are literal duplicates of each other up to the order of the conjuncts. -/

/-- The per-pair overlap test of `/add-another-shift` on `HH:mm` strings
(`exStart`/`exEnd` are `existing.startTime.substring(0,5)` etc.). -/
def addShiftOverlaps (startTime endTime exStart exEnd : String) : Bool :=
  (jsStrLt startTime exEnd && jsStrGt endTime exStart) ||
    (jsStrGt endTime exStart && jsStrLt startTime exEnd)

/-! ## Shift id allocation -/

/-- Function `generateUniqueCode()`:
`Math.floor(Math.random() * (max - min + 1)) + min` with
`min = 10^15`, `max = 10^16 - 1`; `rand` is the `Math.random()` draw. -/
def generateUniqueCode (rand : ℚ) : ℤ :=
  ⌊rand * (9999999999999999 - 1000000000000000 + 1)⌋ + 1000000000000000

/-- The bounded id-generation loop shared by `/save-shift` and
`/add-another-shift` (and the `part_000` variants): up to 10 attempts,
each probing **only the `rota` table**; `none` models the
`"Could not generate unique shift code"` 500.  `gen k` is the id produced
by the `k`-th call of `generateUniqueCode`; `rotaIds` the ids present in
`rota`. -/
def idLoopFrom (gen : ℕ → ℤ) (rotaIds : List ℤ) : ℕ → ℕ → Option ℤ
  | 0, _ => none
  | fuel + 1, k =>
    let i := gen k
    if i ∈ rotaIds then idLoopFrom gen rotaIds fuel (k + 1) else some i

/-- The `while (codeExists && attempts < 10)` loop of the insert path. -/
def saveShiftIdLoop (gen : ℕ → ℤ) (rotaIds : List ℤ) : Option ℤ :=
  idLoopFrom gen rotaIds 10 0

/-- Function `generateUniqueShiftId(conn)` from `part_000`: a `while (true)` loop
probing **both** `ShiftRequests` and `rota`, with no attempt bound and no
failure outcome.  The `fuel` argument only truncates the unbounded loop so
it is a total Lean function: `none` means the loop had not terminated
within `fuel` draws (the JS code would simply keep running). -/
def genUniqueShiftId (gen : ℕ → ℤ) (reqIds rotaIds : List ℤ) :
    ℕ → ℕ → Option ℤ
  | 0, _ => none
  | fuel + 1, k =>
    let i := gen k
    if i ∈ reqIds then genUniqueShiftId gen reqIds rotaIds fuel (k + 1)
    else if i ∈ rotaIds then genUniqueShiftId gen reqIds rotaIds fuel (k + 1)
    else some i

/-! ## Shift endpoints -/

/-- A row of the `rota` table as read by the shift endpoints
(`SELECT id, startTime, endTime` / `SELECT startTime, endTime`);
times are the stored `HH:mm:ss` strings. -/
structure RotaShift where
  id : ℤ
  startTime : String
  endTime : String
deriving DecidableEq, Repr

/-- JS truthiness of the optional `entryId` request field (`if (entryId)`):
absent or `0` is falsy. -/
def entryIdGiven : Option ℤ → Bool
  | none => false
  | some v => v ≠ 0

/-- One iteration of the `/save-shift` overlap loop over the existing rows:
skip the row being updated (`entryId && existing.id == entryId`), otherwise
convert the stored times to minutes and test `shiftOverlap`. -/
def saveOverlapLoop (entryId : Option ℤ) (nS nE : ℤ) :
    List RotaShift → Bool
  | [] => false
  | r :: rest =>
    if entryIdGiven entryId && r.id == entryId.getD 0 then
      saveOverlapLoop entryId nS nE rest
    else
      let p := parseHM (jsSub0 5 r.startTime)
      let q := parseHM (jsSub0 5 r.endTime)
      if shiftOverlap nS nE (p.1 * 60 + p.2 : ℕ) (q.1 * 60 + q.2 : ℕ) then true
      else saveOverlapLoop entryId nS nE rest

/-- Outcome of `/save-shift`. -/
inductive SaveOutcome where
  | invalidTime
  | invalidRange
  | overlapConflict
  | maxShifts
  | allocExhausted
  | updated (id : ℤ)
  | inserted (id : ℤ)
deriving DecidableEq, Repr

/-- The overlap / max-shifts 400s of the shift endpoints are the spec's
`ConflictError` class. -/
def SaveOutcome.isConflictError : SaveOutcome → Bool
  | .overlapConflict => true
  | .maxShifts => true
  | _ => false

/-- Endpoint `/save-shift` (after the required-fields guard), as a function of the
request times, the rows returned by the per-(name,lastName,day) query, and
the id-generation inputs.  Control flow mirrors the source: time regex,
numeric range re-check, overlap loop (which precedes everything else),
then update (`entryId` truthy) or the max-2 count check and the insert
with its bounded id loop. -/
def saveShift (entryId : Option ℤ) (startTime endTime : String)
    (existing : List RotaShift) (gen : ℕ → ℤ) (rotaIds : List ℤ) :
    SaveOutcome :=
  if ¬ (timeRegexOK startTime && timeRegexOK endTime) then .invalidTime
  else
    let sp := parseHM startTime
    let ep := parseHM endTime
    if ¬ (timeRangeOK sp.1 sp.2 && timeRangeOK ep.1 ep.2) then .invalidRange
    else
      let nS : ℤ := sp.1 * 60 + sp.2
      let nE : ℤ := ep.1 * 60 + ep.2
      if saveOverlapLoop entryId nS nE existing then .overlapConflict
      else if entryIdGiven entryId then .updated (entryId.getD 0)
      else if existing.length ≥ 2 then .maxShifts
      else
        match saveShiftIdLoop gen rotaIds with
        | some uid => .inserted uid
        | none => .allocExhausted

/-- The overlap loop of `/add-another-shift`: lexicographic string
comparison of the `HH:mm` prefixes of the stored times. -/
def addOverlapLoop (startTime endTime : String) : List RotaShift → Bool
  | [] => false
  | r :: rest =>
    if addShiftOverlaps startTime endTime
        (jsSub0 5 r.startTime) (jsSub0 5 r.endTime) then true
    else addOverlapLoop startTime endTime rest

/-- Endpoint `/add-another-shift` (after the required-fields guard): time regex,
numeric range re-check, `COUNT(*) >= 2` check (which precedes the overlap
loop here), string-comparison overlap loop, then the bounded id loop and
insert. -/
def addAnotherShift (startTime endTime : String)
    (existing : List RotaShift) (gen : ℕ → ℤ) (rotaIds : List ℤ) :
    SaveOutcome :=
  if ¬ (timeRegexOK startTime && timeRegexOK endTime) then .invalidTime
  else
    let sp := parseHM startTime
    let ep := parseHM endTime
    if ¬ (timeRangeOK sp.1 sp.2 && timeRangeOK ep.1 ep.2) then .invalidRange
    else if existing.length ≥ 2 then .maxShifts
    else if addOverlapLoop startTime endTime existing then .overlapConflict
    else
      match saveShiftIdLoop gen rotaIds with
      | some uid => .inserted uid
      | none => .allocExhausted

/-! ## Holiday table and the decide endpoint (`App.js`) -/

/-- A stored row of the `Holiday` table.  String columns that can be SQL
`NULL` are `Option String`; `days` (an `INT` column) likewise. -/
structure HolidayRow where
  id : ℤ
  name : String
  lastName : String
  startDate : String
  endDate : String
  requestDate : String
  days : Option ℤ
  accepted : Option String
  who : Option String
  notes : Option String
deriving DecidableEq, Repr

/-- The record produced by the decide endpoint's row fetch
`SELECT id, name, lastName, startDate, endDate, notes FROM Holiday WHERE id = ? LIMIT 1`.
The projection does **not** include the `accepted` and `who` columns, so on
the fetched JS object those properties are `undefined`; here they are
fields that the fetch always sets to `none`. -/
structure DecideFetched where
  id : ℤ
  name : String
  lastName : String
  startDate : String
  endDate : String
  notes : Option String
  accepted : Option String
  who : Option String
deriving DecidableEq, Repr

/-- The decide endpoint's row fetch (the projection above). -/
def fetchHolidayForDecide (r : HolidayRow) : DecideFetched :=
  { id := r.id, name := r.name, lastName := r.lastName,
    startDate := r.startDate, endDate := r.endDate, notes := r.notes,
    accepted := none, who := none }

/-- Outcome of `/holidays/decide` (after the auth steps). -/
inductive DecideOutcome where
  | badDecision      -- 400: decision not approve/decline
  | notFound         -- 404
  | alreadyDecided   -- 409 ConflictError
  | decided          -- 200, row updated
deriving DecidableEq, Repr

/-- Endpoint `/holidays/decide` (after the required-fields and authorisation steps,
with `who` the already-resolved actor name): validates the decision
string, fetches the target row (`LIMIT 1`), re-checks "still pending"
against the *fetched* record, and updates `accepted`, `who`, `notes` of
every row matching the id.  Returns the outcome and the table contents
after the call. -/
def decideHoliday (db : List HolidayRow) (id : ℤ)
    (decision who reason : String) : DecideOutcome × List HolidayRow :=
  let dec := jsLower (jsTrim decision)
  if dec ≠ "approve" ∧ dec ≠ "decline" then (.badDecision, db)
  else
    match db.find? (fun r => r.id == id) with
    | none => (.notFound, db)
    | some row =>
      let holiday := fetchHolidayForDecide row
      let currentAccepted := jsLower (jsTrim (jsOrEmpty holiday.accepted))
      let stillPendingOrUnpaid := currentAccepted = "" ∨ currentAccepted = "unpaid"
      if ¬ stillPendingOrUnpaid then (.alreadyDecided, db)
      else
        let acceptedValue := if dec = "approve" then "true" else "false"
        let declineReason := jsTrim reason
        let updatedNotes :=
          if dec = "decline" ∧ declineReason ≠ "" then declineReason
          else jsOrEmpty holiday.notes
        (.decided,
          db.map fun r =>
            if r.id = id then
              { r with accepted := some acceptedValue, who := some who,
                       notes := some updatedNotes }
            else r)

/-! ## Calendar arithmetic

`part_000` works with JS `Date` values at millisecond resolution.  A `Date`
constructed as `new Date(yyyy, mm - 1, dd)` (with rollover for out-of-range
month/day) and normalized by `setHours(0,0,0,0)` is a local-midnight
instant; we represent instants as integer milliseconds and compute the day
number of a civil date with the standard proleptic-Gregorian formula
(`days_from_civil`), which is exactly the day arithmetic JS `Date`
performs. -/

def msPerDay : ℤ := 86400000

/-- Day number (days since 1970-01-01) of the civil date `y-m-d`,
for `m ∈ [1,12]` and arbitrary `d` (day rollover handled by the caller). -/
def daysFromCivil (y m d : ℤ) : ℤ :=
  let yy := if m ≤ 2 then y - 1 else y
  let era := Int.fdiv yy 400
  let yoe := yy - era * 400
  let mp := Int.emod (m + 9) 12
  let doy := Int.fdiv (153 * mp + 2) 5 + d - 1
  let doe := yoe * 365 + Int.fdiv yoe 4 - Int.fdiv yoe 100 + doy
  era * 146097 + doe - 719468

/-- Constructor `new Date(yyyy, m0, dd)` at local midnight, in milliseconds:
JS normalizes an arbitrary integer month index `m0` by year rollover and an
arbitrary integer day `dd` by day rollover. -/
def jsDateMs (yyyy m0 dd : ℤ) : ℤ :=
  let y := yyyy + Int.fdiv m0 12
  let m := Int.emod m0 12 + 1
  (daysFromCivil y m 1 + (dd - 1)) * msPerDay

/-- Function `parseDDMMYYYY` from `part_000` `/holidays`: trim, take the text before
the first space (dropping a `"(Weekday)"` suffix), split on `/` into
exactly three parts, `parseInt` each, reject `0`/`NaN`, and build
`new Date(yyyy, mm - 1, dd)` at local midnight. -/
def parseDDMMYYYY (s : String) : Option ℤ :=
  let first := (jsSplit ' ' (jsTrim s)).headD ""
  match jsSplit '/' first with
  | [p0, p1, p2] =>
    match jsParseInt p0, jsParseInt p1, jsParseInt p2 with
    | some dd, some mm, some yyyy =>
      if dd = 0 ∨ mm = 0 ∨ yyyy = 0 then none
      else some (jsDateMs yyyy (mm - 1) dd)
    | _, _, _ => none
  | _ => none

/-! ## Holiday-year windows and accrual (`part_000` `/holidays`) -/

/-- A configured holiday-year window (`HolidayYearSettings` row); both
bounds are local-midnight instants in milliseconds. -/
structure YearWindow where
  winStart : ℤ
  winEnd : ℤ
deriving DecidableEq, Repr

/-- Function `findYearWindowForDate`: the first window (in the given order, the SQL
`ORDER BY HolidayYearStart DESC`) whose span, widened by
`setHours(0,0,0,0)` / `setHours(23,59,59,999)`, contains the instant. -/
def findYearWindowForDate (windows : List YearWindow) (dateMs : ℤ) :
    Option YearWindow :=
  windows.find? fun y =>
    decide (y.winStart ≤ dateMs ∧ dateMs ≤ y.winEnd + (msPerDay - 1))

/-- Function `calcAccrued(yearStart, yearEnd)` from `part_000` `/holidays`, with the
captured `allowanceDays` and the current instant `todayMs` as arguments.
`yearStartMs`/`yearEndMs` are the window bounds at local midnight; the code
moves the end to `23:59:59.999`, i.e. `+ (msPerDay - 1)`.
`Math.floor` of the millisecond-to-day division is `Int.fdiv`. -/
def calcAccrued (allowanceDays : ℚ) (yearStartMs yearEndMs todayMs : ℤ) : ℚ :=
  if allowanceDays = 0 then 0
  else
    let ys := yearStartMs
    let ye := yearEndMs + (msPerDay - 1)
    if todayMs < ys then 0
    else if todayMs > ye then allowanceDays
    else
      let totalDays : ℤ := Int.fdiv (ye - ys) msPerDay + 1
      let elapsedDays : ℤ := Int.fdiv (todayMs - ys) msPerDay + 1
      min allowanceDays (allowanceDays * elapsedDays / totalDays)

/-! ## Holiday aggregation (`part_000` `/holidays`) -/

/-- Field `normalizeRow(row).status` from `part_000`: `accepted` is null-coalesced,
trimmed and lowercased; `"false"` wins over a non-empty `who`; a non-empty
(trimmed) `who` means approved, split by `"unpaid"`; otherwise pending. -/
def normalizeStatus (row : HolidayRow) : String :=
  let acceptedRaw := jsLower (jsTrim (jsOrEmpty row.accepted))
  let who := jsOrEmpty row.who
  let isApproved := jsTrim who ≠ ""
  let isUnpaid := acceptedRaw = "unpaid"
  let isDeclined := acceptedRaw = "false"
  if isDeclined then "Declined"
  else if isApproved then
    if isUnpaid then "Approved (Unpaid)" else "Approved (Paid)"
  else "Pending"

/-- Field `normalizeRow(row).type`: `"Unpaid"` iff normalized `accepted` is
`"unpaid"`. -/
def normalizeType (row : HolidayRow) : String :=
  if jsLower (jsTrim (jsOrEmpty row.accepted)) = "unpaid" then "Unpaid"
  else "Paid"

/-- Value `Number(row.days ?? 0) || 0` (and the loop's `item.days || 0`). -/
def normDays (row : HolidayRow) : ℤ := row.days.getD 0

/-- The five day-counters of a holiday-year bucket. -/
inductive HolBucket where
  | approvedPaid | approvedUnpaid | declined | pendingPaid | pendingUnpaid
deriving DecidableEq, Repr

/-- Classification performed by the `/holidays` aggregation loop body:
parse the row's `startDate` (`continue` on failure), find its year window
(`continue` when none), then branch on the lowercased `status` string —
`startsWith("approved")`, `=== "declined"`, else pending — refined by the
lowercased `type`. -/
def classifyRow (windows : List YearWindow) (row : HolidayRow) :
    Option (YearWindow × HolBucket) :=
  match parseDDMMYYYY row.startDate with
  | none => none
  | some startDt =>
    match findYearWindowForDate windows startDt with
    | none => none
    | some win =>
      let status := jsLower (normalizeStatus row)
      let ty := jsLower (normalizeType row)
      some (win,
        if jsStartsWith "approved" status then
          if ty = "paid" then .approvedPaid else .approvedUnpaid
        else if status = "declined" then .declined
        else
          if ty = "paid" then .pendingPaid else .pendingUnpaid)

/-- The running day totals of one year bucket
(`takenPaidDays`, …, `declinedDays`). -/
structure YearTotals where
  takenPaidDays : ℤ
  takenUnpaidDays : ℤ
  pendingPaidDays : ℤ
  pendingUnpaidDays : ℤ
  declinedDays : ℤ
deriving DecidableEq, Repr

/-- All-zero totals of a freshly created bucket (`ensureYearBucket`). -/
def YearTotals.zero : YearTotals := ⟨0, 0, 0, 0, 0⟩

/-- Add `days` to the counter selected by the bucket kind — the
`bucket.takenPaidDays += days` etc. statements of the loop. -/
def addToTotals (t : YearTotals) (b : HolBucket) (days : ℤ) : YearTotals :=
  match b with
  | .approvedPaid => { t with takenPaidDays := t.takenPaidDays + days }
  | .approvedUnpaid => { t with takenUnpaidDays := t.takenUnpaidDays + days }
  | .declined => { t with declinedDays := t.declinedDays + days }
  | .pendingPaid => { t with pendingPaidDays := t.pendingPaidDays + days }
  | .pendingUnpaid => { t with pendingUnpaidDays := t.pendingUnpaidDays + days }

/-- One iteration of the `/holidays` row loop, restricted to the totals of
the bucket keyed by window `w` (the map key `"start → end"` is the window
itself, windows being pairwise distinct rows of `HolidayYearSettings`). -/
def aggStep (windows : List YearWindow) (w : YearWindow)
    (t : YearTotals) (row : HolidayRow) : YearTotals :=
  match classifyRow windows row with
  | none => t
  | some (w', b) => if w' = w then addToTotals t b (normDays row) else t

/-- The day totals the `/holidays` loop accumulates for window `w`. -/
def aggregateWindow (windows : List YearWindow) (rows : List HolidayRow)
    (w : YearWindow) : YearTotals :=
  rows.foldl (aggStep windows w) YearTotals.zero

/-- Status derivation as the specification words it (spec-side definition,
compared against the code's `classifyRow`): `accepted == "false"` ⇒
declined; `who` non-empty ⇒ approved (unpaid iff `accepted == "unpaid"`);
otherwise pending (unpaid iff `accepted == "unpaid"`), on the normalized
(trimmed, lowercased) `accepted` and trimmed `who`. -/
def holBucketSpec (row : HolidayRow) : HolBucket :=
  let acc := jsLower (jsTrim (jsOrEmpty row.accepted))
  if acc = "false" then .declined
  else if jsTrim (jsOrEmpty row.who) ≠ "" then
    if acc = "unpaid" then .approvedUnpaid else .approvedPaid
  else
    if acc = "unpaid" then .pendingUnpaid else .pendingPaid

/-! ## Helper lemmas -/

theorem idLoopFrom_none_of_all_mem (gen : ℕ → ℤ) (rotaIds : List ℤ) :
    ∀ fuel k, (∀ j, j < fuel → gen (k + j) ∈ rotaIds) →
      idLoopFrom gen rotaIds fuel k = none := by
  intro fuel
  induction fuel with
  | zero => intro k _; rfl
  | succ n ih =>
    intro k h
    have h0 : gen k ∈ rotaIds := by simpa using h 0 (Nat.succ_pos n)
    simp only [idLoopFrom, h0, if_pos]
    exact ih (k + 1) fun j hj => by
      have := h (j + 1) (Nat.succ_lt_succ hj)
      simpa [Nat.add_assoc, Nat.add_comm 1 j] using this

theorem idLoopFrom_some_spec (gen : ℕ → ℤ) (rotaIds : List ℤ) :
    ∀ fuel k id, idLoopFrom gen rotaIds fuel k = some id →
      id ∉ rotaIds ∧ ∃ j, j < fuel ∧ id = gen (k + j) := by
  intro fuel
  induction fuel with
  | zero => intro k id h; simp [idLoopFrom] at h
  | succ n ih =>
    intro k id h
    simp only [idLoopFrom] at h
    by_cases hm : gen k ∈ rotaIds
    · rw [if_pos hm] at h
      obtain ⟨h1, j, hj, hje⟩ := ih (k + 1) id h
      exact ⟨h1, j + 1, Nat.succ_lt_succ hj, by
        simpa [Nat.add_assoc, Nat.add_comm 1 j] using hje⟩
    · rw [if_neg hm] at h
      exact ⟨by simpa [← Option.some_inj.mp h] using hm,
        0, Nat.succ_pos n, by simpa using (Option.some_inj.mp h).symm⟩

theorem idLoopFrom_isSome_of_fresh (gen : ℕ → ℤ) (rotaIds : List ℤ) :
    ∀ fuel k, (∃ j, j < fuel ∧ gen (k + j) ∉ rotaIds) →
      (idLoopFrom gen rotaIds fuel k).isSome = true := by
  intro fuel
  induction fuel with
  | zero => rintro k ⟨j, hj, _⟩; exact absurd hj (Nat.not_lt_zero j)
  | succ n ih =>
    rintro k ⟨j, hj, hfresh⟩
    simp only [idLoopFrom]
    by_cases hm : gen k ∈ rotaIds
    · rw [if_pos hm]
      rcases j with _ | j
      · exact absurd (by simpa using hfresh) (by simp [hm])
      · exact ih (k + 1) ⟨j, Nat.lt_of_succ_lt_succ hj, by
          simpa [Nat.add_assoc, Nat.add_comm 1 j] using hfresh⟩
    · rw [if_neg hm]; rfl

theorem genUniqueShiftId_some_spec (gen : ℕ → ℤ) (reqIds rotaIds : List ℤ) :
    ∀ fuel k id, genUniqueShiftId gen reqIds rotaIds fuel k = some id →
      id ∉ reqIds ∧ id ∉ rotaIds := by
  intro fuel
  induction fuel with
  | zero => intro k id h; simp [genUniqueShiftId] at h
  | succ n ih =>
    intro k id h
    simp only [genUniqueShiftId] at h
    by_cases h1 : gen k ∈ reqIds
    · rw [if_pos h1] at h; exact ih (k + 1) id h
    · rw [if_neg h1] at h
      by_cases h2 : gen k ∈ rotaIds
      · rw [if_pos h2] at h; exact ih (k + 1) id h
      · rw [if_neg h2] at h
        have : gen k = id := Option.some_inj.mp h
        exact ⟨this ▸ h1, this ▸ h2⟩

theorem generateUniqueCode_range (r : ℚ) (h0 : 0 ≤ r) (h1 : r < 1) :
    1000000000000000 ≤ generateUniqueCode r ∧
      generateUniqueCode r ≤ 9999999999999999 := by
  unfold generateUniqueCode
  have hC : (0 : ℚ) < 9000000000000000 := by norm_num
  have hup : r * (9999999999999999 - 1000000000000000 + 1) < 9000000000000000 := by
    calc r * (9999999999999999 - 1000000000000000 + 1)
        = r * 9000000000000000 := by norm_num
      _ < 1 * 9000000000000000 := by
          exact mul_lt_mul_of_pos_right h1 hC
      _ = 9000000000000000 := by norm_num
  have hlo : (0 : ℚ) ≤ r * (9999999999999999 - 1000000000000000 + 1) := by
    have : (0 : ℚ) ≤ 9999999999999999 - 1000000000000000 + 1 := by norm_num
    exact mul_nonneg h0 this
  constructor
  · have : (0 : ℤ) ≤ ⌊r * (9999999999999999 - 1000000000000000 + 1)⌋ :=
      Int.floor_nonneg.mpr hlo
    omega
  · have : ⌊r * (9999999999999999 - 1000000000000000 + 1)⌋ < 9000000000000000 := by
      apply Int.floor_lt.mpr
      simpa using hup
    omega

theorem timeRegexOK_range (s : String) (h : timeRegexOK s = true) :
    timeRangeOK (parseHM s).1 (parseHM s).2 = true := by
  unfold timeRegexOK at h
  split at h
  case _ hc m1 m2 heq =>
    rename_i hch
    simp only [Bool.and_eq_true, decide_eq_true_eq, isDigitCh] at h
    obtain ⟨⟨⟨-, hh⟩, hm1⟩, hm2⟩ := h
    simp only [parseHM, heq, timeRangeOK, digitVal, Bool.and_eq_true,
      decide_eq_true_eq]
    omega
  case _ h1 h2 hc m1 m2 heq =>
    simp only [Bool.and_eq_true, Bool.or_eq_true, decide_eq_true_eq,
      isDigitCh] at h
    obtain ⟨⟨⟨-, hh⟩, hm1⟩, hm2⟩ := h
    simp only [parseHM, heq, timeRangeOK, digitVal, Bool.and_eq_true,
      decide_eq_true_eq]
    rcases hh with ⟨h1d, h2d⟩ | ⟨h1d, h2d⟩
    · have hb : h1.toNat = 48 ∨ h1.toNat = 49 := by
        rcases h1d with h0 | h0
        · exact Or.inl (by rw [h0]; rfl)
        · exact Or.inr (by rw [h0]; rfl)
      omega
    · have hb : h1.toNat = 50 := by rw [h1d]; rfl
      omega
  case _ => exact absurd h (by simp)

theorem calcAccrued_day_eq (A : ℚ) (ws we t off : ℤ)
    (h0 : 0 ≤ off) (h1 : off < msPerDay) :
    calcAccrued A (ws * msPerDay) (we * msPerDay) (t * msPerDay + off) =
      if t < ws then 0
      else if t > we then A
      else min A (A * (t - ws + 1) / (we - ws + 1)) := by
  have hM : (0 : ℤ) < msPerDay := by norm_num [msPerDay]
  by_cases hA : A = 0
  · subst hA
    simp only [calcAccrued, if_pos rfl]
    split_ifs <;> simp
  · simp only [calcAccrued, if_neg hA]
    by_cases ht1 : t < ws
    · rw [if_pos (by simp only [msPerDay] at *; omega), if_pos ht1]
    · rw [if_neg (by simp only [msPerDay] at *; omega)]
      by_cases ht2 : t > we
      · rw [if_pos (by simp only [msPerDay] at *; omega), if_neg ht1, if_pos ht2]
      · rw [if_neg (by simp only [msPerDay] at *; omega), if_neg ht1, if_neg ht2]
        have htot : Int.fdiv (we * msPerDay + (msPerDay - 1) - ws * msPerDay)
            msPerDay = we - ws := by
          rw [Int.fdiv_eq_ediv _ (le_of_lt hM)]
          have : we * msPerDay + (msPerDay - 1) - ws * msPerDay =
              (msPerDay - 1) + (we - ws) * msPerDay := by ring
          rw [this, Int.add_mul_ediv_right _ _ (ne_of_gt hM),
            Int.ediv_eq_zero_of_lt (by omega) (by omega), zero_add]
        have hel : Int.fdiv (t * msPerDay + off - ws * msPerDay)
            msPerDay = t - ws := by
          rw [Int.fdiv_eq_ediv _ (le_of_lt hM)]
          have : t * msPerDay + off - ws * msPerDay =
              off + (t - ws) * msPerDay := by ring
          rw [this, Int.add_mul_ediv_right _ _ (ne_of_gt hM),
            Int.ediv_eq_zero_of_lt h0 h1, zero_add]
        rw [htot, hel]
        push_cast
        ring_nf

theorem calcAccrued_nonneg (A : ℚ) (ys ye u : ℤ) (hA : 0 ≤ A) :
    0 ≤ calcAccrued A ys ye u := by
  by_cases hA0 : A = 0
  · simp [calcAccrued, hA0]
  · simp only [calcAccrued, if_neg hA0]
    by_cases hu1 : u < ys
    · rw [if_pos hu1]
    · rw [if_neg hu1]
      by_cases hu2 : u > ye + (msPerDay - 1)
      · rw [if_pos hu2]; exact hA
      · rw [if_neg hu2]
        have hM : (0 : ℤ) < msPerDay := by norm_num [msPerDay]
        have hel : (0 : ℤ) ≤ Int.fdiv (u - ys) msPerDay + 1 := by
          have := Int.fdiv_nonneg (a := u - ys) (b := msPerDay)
            (by omega) (le_of_lt hM)
          omega
        have htot : (0 : ℤ) ≤ Int.fdiv (ye + (msPerDay - 1) - ys) msPerDay + 1 := by
          have := Int.fdiv_nonneg (a := ye + (msPerDay - 1) - ys) (b := msPerDay)
            (by omega) (le_of_lt hM)
          omega
        refine le_min hA ?_
        apply div_nonneg
        · exact mul_nonneg hA (by exact_mod_cast hel)
        · exact_mod_cast htot

theorem calcAccrued_le (A : ℚ) (ys ye u : ℤ) (hA : 0 ≤ A) :
    calcAccrued A ys ye u ≤ A := by
  by_cases hA0 : A = 0
  · simp [calcAccrued, hA0]
  · simp only [calcAccrued, if_neg hA0]
    by_cases hu1 : u < ys
    · rw [if_pos hu1]; exact hA
    · rw [if_neg hu1]
      by_cases hu2 : u > ye + (msPerDay - 1)
      · rw [if_pos hu2]
      · rw [if_neg hu2]; exact min_le_left _ _

theorem calcAccrued_mono (A : ℚ) (ys ye : ℤ) (hA : 0 ≤ A) :
    ∀ u1 u2 : ℤ, u1 ≤ u2 →
      calcAccrued A ys ye u1 ≤ calcAccrued A ys ye u2 := by
  intro u1 u2 hu
  by_cases hA0 : A = 0
  · simp [calcAccrued, hA0]
  · by_cases h11 : u1 < ys
    · calc calcAccrued A ys ye u1 = 0 := by
            simp only [calcAccrued, if_neg hA0]; rw [if_pos h11]
        _ ≤ calcAccrued A ys ye u2 := calcAccrued_nonneg A ys ye u2 hA
    · by_cases h22 : u2 > ye + (msPerDay - 1)
      · calc calcAccrued A ys ye u1 ≤ A := calcAccrued_le A ys ye u1 hA
          _ = calcAccrued A ys ye u2 := by
              simp only [calcAccrued, if_neg hA0]
              rw [if_neg (by omega), if_pos h22]
      · -- both in the middle branch
        have h21 : ¬ u2 < ys := by omega
        have h12 : ¬ u1 > ye + (msPerDay - 1) := by omega
        simp only [calcAccrued, if_neg hA0]
        rw [if_neg h11, if_neg h12, if_neg h21, if_neg h22]
        have hM : (0 : ℤ) < msPerDay := by norm_num [msPerDay]
        have hmonoe : Int.fdiv (u1 - ys) msPerDay + 1 ≤
            Int.fdiv (u2 - ys) msPerDay + 1 := by
          have h1 := Int.fdiv_eq_ediv (u1 - ys) (le_of_lt hM)
          have h2 := Int.fdiv_eq_ediv (u2 - ys) (le_of_lt hM)
          have := Int.ediv_le_ediv (a := u1 - ys) (b := u2 - ys) hM (by omega)
          omega
        have htot : (0 : ℤ) < Int.fdiv (ye + (msPerDay - 1) - ys) msPerDay + 1 := by
          have := Int.fdiv_nonneg (a := ye + (msPerDay - 1) - ys) (b := msPerDay)
            (by omega) (le_of_lt hM)
          omega
        have hc : (0 : ℚ) <
            ((Int.fdiv (ye + (msPerDay - 1) - ys) msPerDay + 1 : ℤ) : ℚ) := by
          exact_mod_cast htot
        refine min_le_min le_rfl ?_
        have hnum : A * ((Int.fdiv (u1 - ys) msPerDay + 1 : ℤ) : ℚ) ≤
            A * ((Int.fdiv (u2 - ys) msPerDay + 1 : ℤ) : ℚ) :=
          mul_le_mul_of_nonneg_left (by exact_mod_cast hmonoe) hA
        exact div_le_div_of_nonneg_right hnum hc.le |>.trans le_rfl

theorem jsLower_Declined : jsLower "Declined" = "declined" := by decide

theorem jsLower_ApprovedUnpaid :
    jsLower "Approved (Unpaid)" = "approved (unpaid)" := by decide

theorem jsLower_ApprovedPaid :
    jsLower "Approved (Paid)" = "approved (paid)" := by decide

theorem jsLower_Pending : jsLower "Pending" = "pending" := by decide

theorem jsLower_Unpaid : jsLower "Unpaid" = "unpaid" := by decide

theorem jsLower_Paid : jsLower "Paid" = "paid" := by decide

theorem sw_declined : jsStartsWith "approved" "declined" = false := by decide

theorem sw_apprUnpaid :
    jsStartsWith "approved" "approved (unpaid)" = true := by decide

theorem sw_apprPaid :
    jsStartsWith "approved" "approved (paid)" = true := by decide

theorem sw_pending : jsStartsWith "approved" "pending" = false := by decide

/-- The bucket the `/holidays` loop derives from the normalized status and
type strings coincides with the claim-side `holBucketSpec`. -/
theorem loopBucket_eq_spec (row : HolidayRow) :
    (if jsStartsWith "approved" (jsLower (normalizeStatus row)) then
      if jsLower (normalizeType row) = "paid" then HolBucket.approvedPaid
      else HolBucket.approvedUnpaid
    else if jsLower (normalizeStatus row) = "declined" then HolBucket.declined
    else if jsLower (normalizeType row) = "paid" then HolBucket.pendingPaid
    else HolBucket.pendingUnpaid) = holBucketSpec row := by
  by_cases hacc : jsLower (jsTrim (jsOrEmpty row.accepted)) = "false" <;>
    by_cases hwho : jsTrim (jsOrEmpty row.who) = "" <;>
      by_cases hup : jsLower (jsTrim (jsOrEmpty row.accepted)) = "unpaid" <;>
        simp_all [normalizeStatus, normalizeType, holBucketSpec,
          jsLower_Declined, jsLower_ApprovedUnpaid, jsLower_ApprovedPaid,
          jsLower_Pending, jsLower_Unpaid, jsLower_Paid, sw_declined,
          sw_apprUnpaid, sw_apprPaid, sw_pending]

theorem find?_id_append (pre post : List HolidayRow) (row : HolidayRow)
    (id : ℤ) (hrow : row.id = id) (hpre : ∀ x ∈ pre, x.id ≠ id) :
    (pre ++ row :: post).find? (fun r => r.id == id) = some row := by
  induction pre with
  | nil =>
    simp only [List.nil_append, List.find?]
    rw [show (row.id == id) = true by simpa using hrow]
  | cons a l ih =>
    have ha : a.id ≠ id := hpre a (by simp)
    simp only [List.cons_append, List.find?]
    rw [show (a.id == id) = false by simpa using ha]
    exact ih fun x hx => hpre x (by simp [hx])

theorem map_update_frame (f : HolidayRow → HolidayRow)
    (pre post : List HolidayRow) (row : HolidayRow) (id : ℤ)
    (hrow : row.id = id) (hothers : ∀ x ∈ pre ++ post, x.id ≠ id) :
    ((pre ++ row :: post).map fun r => if r.id = id then f r else r) =
      pre ++ f row :: post := by
  have hpost : (post.map fun r => if r.id = id then f r else r) = post := by
    induction post with
    | nil => rfl
    | cons a l ih =>
      have ha : a.id ≠ id := hothers a (by simp)
      simp only [List.map_cons, if_neg ha]
      rw [ih fun x hx => hothers x (by
        rcases List.mem_append.mp hx with h | h
        · exact List.mem_append.mpr (Or.inl h)
        · exact List.mem_append.mpr (Or.inr (List.mem_cons_of_mem a h)))]
  induction pre with
  | nil => simp only [List.nil_append, List.map_cons, if_pos hrow, hpost]
  | cons a l ih =>
    have ha : a.id ≠ id := hothers a (by simp)
    simp only [List.cons_append, List.map_cons, if_neg ha]
    rw [ih (fun x hx => hothers x (by
      rcases List.mem_append.mp hx with h | h
      · exact List.mem_append.mpr (Or.inl (by simp [h]))
      · exact List.mem_append.mpr (Or.inr h)))]

/-- For a 5-character `HH:mm` string that passes the time regex, storage
normalization appends `":00"` and the display `substring(0,5)` recovers the
original string. -/
theorem ensureTime_roundtrip_len5 (s : String)
    (hs : timeRegexOK s = true) (hlen : s.data.length = 5) :
    ensureTimeWithSeconds s = s ++ ":00" ∧
      displayTime (ensureTimeWithSeconds s) = s := by
  obtain ⟨d⟩ := s
  unfold timeRegexOK at hs
  split at hs
  case _ heq => rw [heq] at hlen; simp at hlen
  case _ h1 h2 c m1 m2 heq =>
    simp only [String.data] at heq hlen
    subst heq
    simp only [Bool.and_eq_true, Bool.or_eq_true, decide_eq_true_eq,
      isDigitCh] at hs
    obtain ⟨⟨⟨hc, hh⟩, hm1⟩, hm2⟩ := hs
    subst hc
    have h1ne : h1 ≠ ':' := by
      rcases hh with ⟨hd, _⟩ | ⟨hd, _⟩
      · rcases hd with h | h <;> (rw [h]; decide)
      · rw [hd]; decide
    have colNat : (':' : Char).toNat = 58 := by decide
    have h2ne : h2 ≠ ':' := by
      intro hcon
      rcases hh with ⟨_, hd⟩ | ⟨_, hd⟩ <;> (rw [hcon, colNat] at hd; omega)
    have m1ne : m1 ≠ ':' := by
      intro hcon; rw [hcon, colNat] at hm1; omega
    have m2ne : m2 ≠ ':' := by
      intro hcon; rw [hcon, colNat] at hm2; omega
    have hsplit : jsSplit ':' ⟨[h1, h2, ':', m1, m2]⟩ =
        [⟨[h1, h2]⟩, ⟨[m1, m2]⟩] := by
      simp only [jsSplit, String.data, jsSplitAux, if_neg h1ne, if_neg h2ne,
        if_pos rfl, if_neg m1ne, if_neg m2ne]
      rfl
    have hincl : jsIncludes ':' ⟨[h1, h2, ':', m1, m2]⟩ = true := by
      simp [jsIncludes, List.contains]
    have hne : (⟨[h1, h2, ':', m1, m2]⟩ : String) ≠ "" := by
      intro hcon
      have : ([h1, h2, ':', m1, m2] : List Char) = [] :=
        congrArg String.data hcon
      simp at this
    have hstore : ensureTimeWithSeconds ⟨[h1, h2, ':', m1, m2]⟩ =
        (⟨[h1, h2, ':', m1, m2]⟩ : String) ++ ":00" := by
      unfold ensureTimeWithSeconds
      rw [if_neg hne, if_pos (by rw [hincl, hsplit]; simp)]
    refine ⟨hstore, ?_⟩
    rw [hstore]
    show jsSub0 5 _ = _
    have happ : ((⟨[h1, h2, ':', m1, m2]⟩ : String) ++ ":00").data =
        [h1, h2, ':', m1, m2] ++ [':', '0', '0'] := rfl
    simp only [jsSub0, happ]
    rfl
  case _ => exact absurd hs (by simp)

/-! ## Claim theorems -/

/-- C1: the claim says a decide call on an already-decided holiday request
(non-empty `who`, `accepted` `"true"`/`"false"`) returns the 409
ConflictError and leaves the row unchanged.  The code's row fetch
(`SELECT id, name, lastName, startDate, endDate, notes`) omits `accepted`
and `who`, so the "already decided" guard always reads `""` and passes:
on a row already declined by `"Grace Boss"`, a second decide succeeds and
overwrites `accepted` and `who`. -/
theorem holidayDecide_redecides_decided_row :
    (decideHoliday
      [{ id := 1, name := "Ann", lastName := "Lee", startDate := "01/07/2024",
         endDate := "05/07/2024", requestDate := "01/06/2024",
         days := some 5, accepted := some "false", who := some "Grace Boss",
         notes := some "short staffed" }]
      1 "approve" "Bob Manager" "").1 = DecideOutcome.decided ∧
    (decideHoliday
      [{ id := 1, name := "Ann", lastName := "Lee", startDate := "01/07/2024",
         endDate := "05/07/2024", requestDate := "01/06/2024",
         days := some 5, accepted := some "false", who := some "Grace Boss",
         notes := some "short staffed" }]
      1 "approve" "Bob Manager" "").2 =
      [{ id := 1, name := "Ann", lastName := "Lee", startDate := "01/07/2024",
         endDate := "05/07/2024", requestDate := "01/06/2024",
         days := some 5, accepted := some "true", who := some "Bob Manager",
         notes := some "short staffed" }] := by
  decide

/-- C2 counterexample: overlap symmetry fails when exactly one interval
wraps midnight.  A = 22:00→02:00 (wrapping), B = 00:00→06:00: with A as
the candidate the disjunctive wrap branch reports an overlap, with B as
the candidate the code reports none. -/
theorem shiftOverlap_not_symmetric :
    shiftOverlap 1320 120 0 360 = true ∧
      shiftOverlap 0 360 1320 120 = false := by
  decide

/-- C2 amended: the overlap check is symmetric for every pair that wraps
alike — both intervals wrap past midnight (start > end) or neither
does. -/
theorem shiftOverlap_symm_of_wrapAlike (nS nE eS eE : ℤ)
    (h : wrapsMidnight nS nE = wrapsMidnight eS eE) :
    shiftOverlap nS nE eS eE = shiftOverlap eS eE nS nE := by
  have h' : nS > nE ↔ eS > eE := by
    simpa [wrapsMidnight, decide_eq_decide] using h
  unfold shiftOverlap
  split_ifs <;>
    first
      | rfl
      | (simp only [decide_eq_decide]; omega)
      | (simp only [decide_eq_true_eq, decide_eq_false_iff_not,
          Bool.true_eq, Bool.false_eq, false_iff, true_iff]; omega)

/-- C2 amended witness: two in-day intervals, checked both ways. -/
theorem shiftOverlap_symm_of_wrapAlike_witness :
    wrapsMidnight 540 780 = wrapsMidnight 780 1020 ∧
      shiftOverlap 540 780 780 1020 = shiftOverlap 780 1020 540 780 :=
  ⟨by decide, shiftOverlap_symm_of_wrapAlike 540 780 780 1020 (by decide)⟩

/-- C3: the `/save-shift` path canonicalizes to minutes (adding 1440 to a
wrapped end) and decides both spec scenarios correctly, but the
`/add-another-shift` path compares `HH:mm` strings lexicographically:
at the wrap scenario (candidate 22:00–23:00 against stored 22:55–00:55)
it reports *no* overlap, because `"22:00" < "00:55"` is false. -/
theorem addShift_overlap_check_misses_wrap :
    shiftOverlap (22 * 60) (23 * 60) (22 * 60 + 55) 55 = true ∧
    shiftOverlap 0 (6 * 60) (22 * 60) (23 * 60 + 59) = false ∧
    addShiftOverlaps "22:00" "23:00" "22:55" "00:55" = false ∧
    addShiftOverlaps "00:00" "06:00" "22:00" "23:59" = false ∧
    addOverlapLoop "22:00" "23:00" [⟨1, "22:55:00", "00:55:00"⟩] = false := by
  decide

/-- C4 counterexample: (i) the insert-path allocation loop of
`/save-shift` probes only `rota` — with the generated id already present
in the shift-request table (`[10^15]`) and `rota` empty, it still returns
that id; (ii) the two-table allocator `generateUniqueShiftId` is not
bounded by 10 attempts — with the first 10 draws colliding it keeps going
and succeeds on the 11th draw instead of failing. -/
theorem idAllocation_claim_fails :
    saveShiftIdLoop (fun _ => 1000000000000000) ([] : List ℤ) =
      some 1000000000000000 ∧
    (1000000000000000 : ℤ) ∈ [(1000000000000000 : ℤ)] ∧
    genUniqueShiftId (fun k => if k < 10 then 7 else 99) [7] [] 20 0 =
      some 99 := by
  decide

/-- C4 amended: `generateUniqueCode` yields a 16-digit integer in
`[10^15, 10^16 - 1]`; the save/add insert loop retries up to 10 attempts
probing only the `rota` table — it fails exactly in the sense that all ten
draws collide with `rota` ids, succeeds with a `rota`-fresh id whenever
some draw among the first ten is `rota`-fresh; and the separate allocator
`generateUniqueShiftId` probes both `ShiftRequests` and `rota` (any id it
returns is fresh for both) but retries without an attempt bound. -/
theorem idAllocation_amended (gen : ℕ → ℤ) (rotaIds reqIds : List ℤ)
    (r : ℚ) (h0 : 0 ≤ r) (h1 : r < 1) :
    (1000000000000000 ≤ generateUniqueCode r ∧
      generateUniqueCode r ≤ 9999999999999999) ∧
    ((∀ j, j < 10 → gen j ∈ rotaIds) → saveShiftIdLoop gen rotaIds = none) ∧
    (∀ id, saveShiftIdLoop gen rotaIds = some id →
      id ∉ rotaIds ∧ ∃ j, j < 10 ∧ id = gen j) ∧
    ((∃ j, j < 10 ∧ gen j ∉ rotaIds) →
      (saveShiftIdLoop gen rotaIds).isSome = true) ∧
    (∀ fuel k id, genUniqueShiftId gen reqIds rotaIds fuel k = some id →
      id ∉ reqIds ∧ id ∉ rotaIds) := by
  refine ⟨generateUniqueCode_range r h0 h1, ?_, ?_, ?_, ?_⟩
  · intro hall
    exact idLoopFrom_none_of_all_mem gen rotaIds 10 0 fun j hj => by
      simpa using hall j hj
  · intro id hid
    obtain ⟨hnm, j, hj, hje⟩ := idLoopFrom_some_spec gen rotaIds 10 0 id hid
    exact ⟨hnm, j, hj, by simpa using hje⟩
  · rintro ⟨j, hj, hfresh⟩
    exact idLoopFrom_isSome_of_fresh gen rotaIds 10 0 ⟨j, hj, by simpa using hfresh⟩
  · exact genUniqueShiftId_some_spec gen reqIds rotaIds

/-- C4 amended witness: concrete range instance and a concrete
all-collide exhaustion. -/
theorem idAllocation_amended_witness :
    (0 ≤ (1 / 2 : ℚ) ∧ (1 / 2 : ℚ) < 1) ∧
    (1000000000000000 ≤ generateUniqueCode (1 / 2) ∧
      generateUniqueCode (1 / 2) ≤ 9999999999999999) ∧
    saveShiftIdLoop (fun _ => 7) [7] = none :=
  ⟨⟨by norm_num, by norm_num⟩,
    (idAllocation_amended (fun _ => 7) [7] [] (1 / 2)
      (by norm_num) (by norm_num)).1,
    (idAllocation_amended (fun _ => 7) [7] [] (1 / 2)
      (by norm_num) (by norm_num)).2.1 fun j _ => by simp⟩

/-- C5: for a window `[ws, we]` (day numbers, i.e. local midnights) and any
time of day `off` within `today`, `calcAccrued` is 0 before the window,
the full allowance after it, and otherwise
`allowance * elapsedDays / totalDays` with inclusive day counts
`elapsedDays = today - ws + 1`, `totalDays = we - ws + 1`, capped at the
allowance; and the spec scenario (allowance 28, window 2024-01-01 to
2024-12-31, today 2024-07-01, day 183 of 366) yields exactly
`28 * 183 / 366 = 14`. -/
theorem accrual_formula_spec (A : ℚ) (ws we t off : ℤ)
    (h0 : 0 ≤ off) (h1 : off < msPerDay) :
    (calcAccrued A (ws * msPerDay) (we * msPerDay) (t * msPerDay + off) =
      if t < ws then 0
      else if t > we then A
      else min A (A * (t - ws + 1) / (we - ws + 1))) ∧
    calcAccrued 28 (jsDateMs 2024 0 1) (jsDateMs 2024 11 31)
      (jsDateMs 2024 6 1) = 14 ∧
    (28 : ℚ) * 183 / 366 = 14 := by
  refine ⟨calcAccrued_day_eq A ws we t off h0 h1, ?_, by norm_num⟩
  have h := calcAccrued_day_eq 28 19723 20088 19905 0 (le_refl 0)
    (by norm_num [msPerDay])
  rw [add_zero] at h
  rw [show jsDateMs 2024 0 1 = 19723 * msPerDay from by decide,
    show jsDateMs 2024 11 31 = 20088 * msPerDay from by decide,
    show jsDateMs 2024 6 1 = 19905 * msPerDay from by decide, h]
  norm_num

/-- C5 witness: allowance 28 over a 366-day window, day 183, accrues 14. -/
theorem accrual_formula_spec_witness :
    (0 : ℤ) ≤ 0 ∧ (0 : ℤ) < msPerDay ∧
    calcAccrued 28 (0 * msPerDay) (365 * msPerDay) (182 * msPerDay + 0) =
      (if (182 : ℤ) < 0 then 0
       else if (182 : ℤ) > 365 then 28
       else min 28 ((28 : ℚ) * (182 - 0 + 1) / (365 - 0 + 1))) :=
  ⟨le_refl 0, by norm_num [msPerDay],
    (accrual_formula_spec 28 0 365 182 0 (le_refl 0)
      (by norm_num [msPerDay])).1⟩

/-- C6: for a fixed allowance `A ≥ 0` and window, the accrual is monotone
non-decreasing in `today`, equals the full allowance strictly after the
window's last day, and always lies in `[0, A]`. -/
theorem accrual_monotone_bounded (A : ℚ) (ys ye : ℤ)
    (hA : 0 ≤ A) (hw : ys ≤ ye) :
    (∀ u1 u2 : ℤ, u1 ≤ u2 →
      calcAccrued A ys ye u1 ≤ calcAccrued A ys ye u2) ∧
    (∀ u : ℤ, ye + (msPerDay - 1) < u → calcAccrued A ys ye u = A) ∧
    (∀ u : ℤ, 0 ≤ calcAccrued A ys ye u ∧ calcAccrued A ys ye u ≤ A) := by
  refine ⟨calcAccrued_mono A ys ye hA, ?_, fun u =>
    ⟨calcAccrued_nonneg A ys ye u hA, calcAccrued_le A ys ye u hA⟩⟩
  intro u hu
  by_cases hA0 : A = 0
  · simp [calcAccrued, hA0]
  · have hM : (0 : ℤ) < msPerDay := by norm_num [msPerDay]
    simp only [calcAccrued, if_neg hA0]
    rw [if_neg (by omega), if_pos hu]

/-- C6 witness: allowance 28 over a 366-day window — a monotone step, the
after-window value, and the bounds at a concrete day. -/
theorem accrual_monotone_bounded_witness :
    (0 : ℚ) ≤ 28 ∧ (0 : ℤ) ≤ 365 * msPerDay ∧
    calcAccrued 28 0 (365 * msPerDay) (100 * msPerDay) ≤
      calcAccrued 28 0 (365 * msPerDay) (200 * msPerDay) ∧
    calcAccrued 28 0 (365 * msPerDay) (400 * msPerDay) = 28 ∧
    (0 ≤ calcAccrued 28 0 (365 * msPerDay) (50 * msPerDay) ∧
      calcAccrued 28 0 (365 * msPerDay) (50 * msPerDay) ≤ 28) :=
  ⟨by norm_num, by norm_num [msPerDay],
    (accrual_monotone_bounded 28 0 (365 * msPerDay) (by norm_num)
      (by norm_num [msPerDay])).1 (100 * msPerDay) (200 * msPerDay)
      (by norm_num [msPerDay]),
    (accrual_monotone_bounded 28 0 (365 * msPerDay) (by norm_num)
      (by norm_num [msPerDay])).2.1 (400 * msPerDay)
      (by norm_num [msPerDay]),
    (accrual_monotone_bounded 28 0 (365 * msPerDay) (by norm_num)
      (by norm_num [msPerDay])).2.2 (50 * msPerDay)⟩

/-- C7: with two rows already stored for the (employeeKey, day), a third
*add* (no `entryId`) with valid times is rejected with a ConflictError on
both endpoints — `/save-shift` returns the overlap 400 or the max-2 400
(both ConflictError), `/add-another-shift` always the max-2 400 — while an
*update* (truthy `entryId`) is never rejected by the max-2 count. -/
theorem third_shift_conflict (entryId : Option ℤ)
    (startTime endTime : String) (existing : List RotaShift)
    (gen : ℕ → ℤ) (rotaIds : List ℤ)
    (hs : timeRegexOK startTime = true) (he : timeRegexOK endTime = true)
    (hlen : existing.length = 2) :
    ((saveShift none startTime endTime existing gen rotaIds =
        SaveOutcome.overlapConflict ∨
      saveShift none startTime endTime existing gen rotaIds =
        SaveOutcome.maxShifts) ∧
      (saveShift none startTime endTime existing gen
        rotaIds).isConflictError = true) ∧
    addAnotherShift startTime endTime existing gen rotaIds =
      SaveOutcome.maxShifts ∧
    (entryIdGiven entryId = true →
      saveShift entryId startTime endTime existing gen rotaIds ≠
        SaveOutcome.maxShifts) := by
  have hr1 := timeRegexOK_range startTime hs
  have hr2 := timeRegexOK_range endTime he
  have hd : saveShift none startTime endTime existing gen rotaIds =
      SaveOutcome.overlapConflict ∨
      saveShift none startTime endTime existing gen rotaIds =
      SaveOutcome.maxShifts := by
    unfold saveShift
    rw [if_neg (by simp [hs, he])]
    rw [if_neg (by simp [hr1, hr2])]
    dsimp only [entryIdGiven]
    rw [if_neg (show ¬ false = true by simp)]
    split
    · exact Or.inl rfl
    · rw [if_pos (by omega)]
      exact Or.inr rfl
  refine ⟨⟨hd, ?_⟩, ?_, ?_⟩
  · rcases hd with h | h <;> rw [h] <;> rfl
  · unfold addAnotherShift
    rw [if_neg (by simp [hs, he])]
    rw [if_neg (by simp [hr1, hr2])]
    rw [if_pos (show existing.length ≥ 2 by omega)]
  · intro hgiven
    unfold saveShift
    rw [if_neg (by simp [hs, he])]
    rw [if_neg (by simp [hr1, hr2])]
    rw [hgiven, if_pos rfl]
    dsimp only
    split
    · exact fun hcon => SaveOutcome.noConfusion hcon
    · exact fun hcon => SaveOutcome.noConfusion hcon

/-- C7 witness: two stored shifts 09:00–13:00 and 13:00–17:00; a third
add of 12:00–14:00 conflicts on both endpoints; an update by id does not
hit the max-2 check. -/
theorem third_shift_conflict_witness :
    timeRegexOK "12:00" = true ∧ timeRegexOK "14:00" = true ∧
    ([⟨1, "09:00:00", "13:00:00"⟩, ⟨2, "13:00:00", "17:00:00"⟩] :
      List RotaShift).length = 2 ∧
    (saveShift none "12:00" "14:00"
        [⟨1, "09:00:00", "13:00:00"⟩, ⟨2, "13:00:00", "17:00:00"⟩]
        (fun _ => 5) [] = SaveOutcome.overlapConflict ∨
      saveShift none "12:00" "14:00"
        [⟨1, "09:00:00", "13:00:00"⟩, ⟨2, "13:00:00", "17:00:00"⟩]
        (fun _ => 5) [] = SaveOutcome.maxShifts) ∧
    addAnotherShift "12:00" "14:00"
      [⟨1, "09:00:00", "13:00:00"⟩, ⟨2, "13:00:00", "17:00:00"⟩]
      (fun _ => 5) [] = SaveOutcome.maxShifts ∧
    saveShift (some 1) "12:00" "14:00"
      [⟨1, "09:00:00", "13:00:00"⟩, ⟨2, "13:00:00", "17:00:00"⟩]
      (fun _ => 5) [] ≠ SaveOutcome.maxShifts :=
  ⟨by decide, by decide, by decide,
    (third_shift_conflict (some 1) "12:00" "14:00"
      [⟨1, "09:00:00", "13:00:00"⟩, ⟨2, "13:00:00", "17:00:00"⟩]
      (fun _ => 5) [] (by decide) (by decide) (by decide)).1.1,
    (third_shift_conflict (some 1) "12:00" "14:00"
      [⟨1, "09:00:00", "13:00:00"⟩, ⟨2, "13:00:00", "17:00:00"⟩]
      (fun _ => 5) [] (by decide) (by decide) (by decide)).2.1,
    (third_shift_conflict (some 1) "12:00" "14:00"
      [⟨1, "09:00:00", "13:00:00"⟩, ⟨2, "13:00:00", "17:00:00"⟩]
      (fun _ => 5) [] (by decide) (by decide) (by decide)).2.2 (by decide)⟩

/-- C8: the `/holidays` aggregation discards (no bucket, totals unchanged)
any request whose `startDate` fails to parse or falls in no configured
window; otherwise it buckets the request into the first window containing
the parsed date, with the status derivation of `holBucketSpec` (declined
when normalized `accepted` is `"false"`; approved paid/unpaid on non-empty
trimmed `who`; pending paid/unpaid otherwise), adding its `days` to
exactly that bucket's counter. -/
theorem holidays_bucketing (windows : List YearWindow) (row : HolidayRow)
    (t : YearTotals) (w : YearWindow) :
    (parseDDMMYYYY row.startDate = none →
      classifyRow windows row = none ∧ aggStep windows w t row = t) ∧
    (∀ d, parseDDMMYYYY row.startDate = some d →
      findYearWindowForDate windows d = none →
      classifyRow windows row = none ∧ aggStep windows w t row = t) ∧
    (∀ d w0, parseDDMMYYYY row.startDate = some d →
      findYearWindowForDate windows d = some w0 →
      w0 ∈ windows ∧ w0.winStart ≤ d ∧ d ≤ w0.winEnd + (msPerDay - 1) ∧
      classifyRow windows row = some (w0, holBucketSpec row) ∧
      aggStep windows w0 t row =
        addToTotals t (holBucketSpec row) (normDays row) ∧
      (w ≠ w0 → aggStep windows w t row = t)) := by
  refine ⟨?_, ?_, ?_⟩
  · intro hp
    have hc : classifyRow windows row = none := by
      unfold classifyRow; rw [hp]
    exact ⟨hc, by unfold aggStep; rw [hc]⟩
  · intro d hp hf
    have hc : classifyRow windows row = none := by
      unfold classifyRow; rw [hp]; dsimp only; rw [hf]
    exact ⟨hc, by unfold aggStep; rw [hc]⟩
  · intro d w0 hp hf
    have h1 := List.mem_of_find?_eq_some hf
    have h2 := List.find?_some hf
    simp only [decide_eq_true_eq] at h2
    have hc : classifyRow windows row = some (w0, holBucketSpec row) := by
      unfold classifyRow
      rw [hp]
      dsimp only
      rw [hf]
      dsimp only
      rw [loopBucket_eq_spec row]
    refine ⟨h1, h2.1, h2.2, hc, ?_, ?_⟩
    · unfold aggStep; rw [hc]; simp
    · intro hw
      unfold aggStep; rw [hc]
      exact if_neg fun hcon => hw hcon.symm

/-- C8 witness: a declined ("false") request of 3 days starting 15/06/2024
against the single window 2024-01-01 … 2024-12-31 lands in that window's
declined bucket. -/
theorem holidays_bucketing_witness :
    classifyRow [⟨jsDateMs 2024 0 1, jsDateMs 2024 11 31⟩]
      { id := 1, name := "Ann", lastName := "Lee",
        startDate := "15/06/2024", endDate := "18/06/2024",
        requestDate := "01/06/2024", days := some 3,
        accepted := some "false", who := some "Grace Boss",
        notes := none } =
      some (⟨jsDateMs 2024 0 1, jsDateMs 2024 11 31⟩,
        holBucketSpec
          { id := 1, name := "Ann", lastName := "Lee",
            startDate := "15/06/2024", endDate := "18/06/2024",
            requestDate := "01/06/2024", days := some 3,
            accepted := some "false", who := some "Grace Boss",
            notes := none }) ∧
    holBucketSpec
      { id := 1, name := "Ann", lastName := "Lee",
        startDate := "15/06/2024", endDate := "18/06/2024",
        requestDate := "01/06/2024", days := some 3,
        accepted := some "false", who := some "Grace Boss",
        notes := none } = HolBucket.declined :=
  ⟨((holidays_bucketing [⟨jsDateMs 2024 0 1, jsDateMs 2024 11 31⟩]
      { id := 1, name := "Ann", lastName := "Lee",
        startDate := "15/06/2024", endDate := "18/06/2024",
        requestDate := "01/06/2024", days := some 3,
        accepted := some "false", who := some "Grace Boss",
        notes := none }
      YearTotals.zero ⟨jsDateMs 2024 0 1, jsDateMs 2024 11 31⟩).2.2
      (jsDateMs 2024 5 15) ⟨jsDateMs 2024 0 1, jsDateMs 2024 11 31⟩
      (by decide) (by decide)).2.2.2.1,
    by decide⟩

/-- C9 counterexample: the validation regex accepts one-digit hours, and
those break the round trip: `"9:30"` is valid and distinct from the valid
`"10:00"`, but it is stored as `"9:30:00"` and read back by
`substring(0,5)` as `"9:30:"`, not `"9:30"`. -/
theorem hhmm_roundtrip_fails_one_digit_hour :
    timeRegexOK "9:30" = true ∧ timeRegexOK "10:00" = true ∧
    ("9:30" : String) ≠ "10:00" ∧
    ensureTimeWithSeconds "9:30" = "9:30:00" ∧
    displayTime (ensureTimeWithSeconds "9:30") = "9:30:" ∧
    ("9:30:" : String) ≠ "9:30" := by
  decide

/-- C9 amended: for valid pairs written as five-character `HH:mm`
(two-digit hour), storage appends `":00"` and the display
`substring(0,5)` returns exactly the original strings. -/
theorem hhmm_roundtrip_amended (s e : String)
    (hs : timeRegexOK s = true) (he : timeRegexOK e = true)
    (_hne : s ≠ e) (hsl : s.data.length = 5) (hel : e.data.length = 5) :
    ensureTimeWithSeconds s = s ++ ":00" ∧
    displayTime (ensureTimeWithSeconds s) = s ∧
    ensureTimeWithSeconds e = e ++ ":00" ∧
    displayTime (ensureTimeWithSeconds e) = e := by
  obtain ⟨hs1, hs2⟩ := ensureTime_roundtrip_len5 s hs hsl
  obtain ⟨he1, he2⟩ := ensureTime_roundtrip_len5 e he hel
  exact ⟨hs1, hs2, he1, he2⟩

/-- C9 amended witness: the pair 09:00 / 17:00. -/
theorem hhmm_roundtrip_amended_witness :
    ensureTimeWithSeconds "09:00" = "09:00" ++ ":00" ∧
    displayTime (ensureTimeWithSeconds "09:00") = "09:00" ∧
    ensureTimeWithSeconds "17:00" = "17:00" ++ ":00" ∧
    displayTime (ensureTimeWithSeconds "17:00") = "17:00" :=
  hhmm_roundtrip_amended "09:00" "17:00" (by decide) (by decide)
    (by decide) (by decide) (by decide)

/-- Shared unfolding of a valid decide call on a table whose only row with
the target id is `row` (placed between `pre` and `post`): the outcome is
`decided` and only that row's `accepted`, `who` and `notes` change. -/
theorem decideHoliday_decides (pre post : List HolidayRow) (row : HolidayRow)
    (id : ℤ) (decision who reason : String)
    (hrow : row.id = id) (hothers : ∀ x ∈ pre ++ post, x.id ≠ id)
    (hvalid : jsLower (jsTrim decision) = "approve" ∨
      jsLower (jsTrim decision) = "decline") :
    decideHoliday (pre ++ row :: post) id decision who reason =
      (DecideOutcome.decided,
        pre ++
          { row with
            accepted := some (if jsLower (jsTrim decision) = "approve"
              then "true" else "false"),
            who := some who,
            notes := some (if jsLower (jsTrim decision) = "decline" ∧
                ¬ jsTrim reason = "" then jsTrim reason
              else jsOrEmpty row.notes) } :: post) := by
  unfold decideHoliday
  rw [if_neg (by tauto)]
  rw [find?_id_append pre post row id hrow
    (fun x hx => hothers x (List.mem_append.mpr (Or.inl hx)))]
  dsimp only [fetchHolidayForDecide]
  have hcur : jsLower (jsTrim (jsOrEmpty (none : Option String))) = "" := by
    decide
  rw [hcur]
  rw [if_neg (by simp)]
  rw [map_update_frame _ pre post row id hrow hothers]

/-- C10: a decide call writes only the `accepted`, `who` and `notes`
columns of the single row with the target id — `startDate`, `endDate`,
`requestDate`, `days` and every other row are unchanged (the record update
and the untouched `pre`/`post` exhibit this) — and `notes` keeps its prior
value (`NULL` normalized to `""`) on approve or on decline with an empty
reason, while decline with a non-empty (trimmed) reason replaces `notes`
with that reason.  An invalid decision string leaves the table untouched. -/
theorem holidayDecide_frame (pre post : List HolidayRow) (row : HolidayRow)
    (id : ℤ) (decision who reason : String)
    (hrow : row.id = id) (hothers : ∀ x ∈ pre ++ post, x.id ≠ id)
    (htrim : jsTrim reason = reason) :
    (jsLower (jsTrim decision) ≠ "approve" ∧
        jsLower (jsTrim decision) ≠ "decline" →
      decideHoliday (pre ++ row :: post) id decision who reason =
        (DecideOutcome.badDecision, pre ++ row :: post)) ∧
    (jsLower (jsTrim decision) = "approve" →
      decideHoliday (pre ++ row :: post) id decision who reason =
        (DecideOutcome.decided,
          pre ++
            { row with
              accepted := some "true",
              who := some who,
              notes := some (jsOrEmpty row.notes) } :: post)) ∧
    (jsLower (jsTrim decision) = "decline" → reason = "" →
      decideHoliday (pre ++ row :: post) id decision who reason =
        (DecideOutcome.decided,
          pre ++
            { row with
              accepted := some "false",
              who := some who,
              notes := some (jsOrEmpty row.notes) } :: post)) ∧
    (jsLower (jsTrim decision) = "decline" → reason ≠ "" →
      decideHoliday (pre ++ row :: post) id decision who reason =
        (DecideOutcome.decided,
          pre ++
            { row with
              accepted := some "false",
              who := some who,
              notes := some reason } :: post)) := by
  refine ⟨?_, ?_, ?_, ?_⟩
  · intro hbad
    unfold decideHoliday
    rw [if_pos hbad]
  · intro hd
    rw [decideHoliday_decides pre post row id decision who reason hrow
      hothers (Or.inl hd), hd]
    rw [if_pos rfl,
      if_neg (fun hcon => absurd hcon.1 (by decide))]
  · intro hd hr
    rw [decideHoliday_decides pre post row id decision who reason hrow
      hothers (Or.inr hd), hd, htrim, hr]
    rw [if_neg (by decide),
      if_neg (fun hcon => absurd hcon.2 (by simp))]
  · intro hd hr
    rw [decideHoliday_decides pre post row id decision who reason hrow
      hothers (Or.inr hd), hd, htrim]
    rw [if_neg (by decide), if_pos ⟨rfl, hr⟩]

/-- C10 witness: a one-row table, declined with reason "short staffed". -/
theorem holidayDecide_frame_witness :
    decideHoliday
      [{ id := 7, name := "Ann", lastName := "Lee",
         startDate := "01/07/2024", endDate := "05/07/2024",
         requestDate := "01/06/2024", days := some 5, accepted := some "",
         who := some "", notes := some "old note" }]
      7 "decline" "Grace Boss" "short staffed" =
      (DecideOutcome.decided,
        [{ id := 7, name := "Ann", lastName := "Lee",
           startDate := "01/07/2024", endDate := "05/07/2024",
           requestDate := "01/06/2024", days := some 5,
           accepted := some "false", who := some "Grace Boss",
           notes := some "short staffed" }]) :=
  (holidayDecide_frame []
    [] { id := 7, name := "Ann", lastName := "Lee",
         startDate := "01/07/2024", endDate := "05/07/2024",
         requestDate := "01/06/2024", days := some 5, accepted := some "",
         who := some "", notes := some "old note" }
    7 "decline" "Grace Boss" "short staffed" rfl
    (by intro x hx; simp at hx) (by decide)).2.2.2 (by decide) (by decide)

end Solura
